import Mathlib

/-!
Shallow embedding of `src/fetch-jira-stories.js`.

JavaScript values are modelled by `JSValue`; numbers are modelled as
integers (no float arithmetic occurs in the program, only truthiness
tests and copying). Member access `a.b` throws a TypeError when `a` is
`undefined` or `null` and is modelled in the `Except String` monad;
optional chaining `a?.b` is total. `a || b` is modelled by `jsOr` with
JavaScript truthiness.
-/

inductive JSValue where
  | undefined : JSValue
  | null : JSValue
  | bool : Bool → JSValue
  | num : Int → JSValue
  | str : String → JSValue
  | arr : List JSValue → JSValue
  | obj : List (String × JSValue) → JSValue
deriving Repr

namespace JSValue

/-- JavaScript truthiness: `undefined`, `null`, `false`, `0`, `""` are falsy;
every array and object is truthy. -/
def truthy : JSValue → Bool
  | .undefined => false
  | .null => false
  | .bool b => b
  | .num n => n != 0
  | .str s => s != ""
  | .arr _ => true
  | .obj _ => true

/-- `v` is not `undefined` and not `null` (member access on it cannot throw). -/
def notNullish : JSValue → Bool
  | .undefined => false
  | .null => false
  | _ => true

/-- Pure property lookup: `undefined` for a missing key or a primitive
receiver (JavaScript primitives have no own properties relevant here). -/
def pget (v : JSValue) (k : String) : JSValue :=
  match v with
  | .obj fields => (fields.lookup k).getD .undefined
  | _ => .undefined

/-- Member access `v.k`: throws a TypeError when `v` is nullish. -/
def getProp (v : JSValue) (k : String) : Except String JSValue :=
  match v with
  | .undefined => .error ("TypeError: cannot read properties of undefined (reading " ++ k ++ ")")
  | .null => .error ("TypeError: cannot read properties of null (reading " ++ k ++ ")")
  | _ => .ok (pget v k)

/-- Optional chaining `v?.k`: `undefined` when `v` is nullish. -/
def optChain (v : JSValue) (k : String) : JSValue :=
  match v with
  | .undefined => .undefined
  | .null => .undefined
  | _ => pget v k

/-- Optional index `v?.[i]`; strings are indexable in JavaScript, yielding
one-character strings. -/
def optIndex (v : JSValue) (i : Nat) : JSValue :=
  match v with
  | .arr xs => (xs.get? i).getD .undefined
  | .str s => match s.toList.get? i with
    | some c => .str (String.singleton c)
    | none => .undefined
  | _ => .undefined

/-- `a || b`. -/
def jsOr (a b : JSValue) : JSValue :=
  if truthy a then a else b

/-- Element conversion inside an array join: JavaScript renders `undefined`
and `null` as the empty string there; nested composites are approximated. -/
def jsKeyAtom : JSValue → String
  | .undefined => ""
  | .null => ""
  | .bool b => cond b "true" "false"
  | .num n => toString n
  | .str s => s
  | .arr _ => ""
  | .obj _ => "[object Object]"

/-- String conversion used for template literals and property keys; faithful
for the primitive values reaching the program's stringification sites
(record keys and status names, strings in the remote schema); arrays are
joined one level deep. -/
def jsKey : JSValue → String
  | .undefined => "undefined"
  | .null => "null"
  | .bool b => cond b "true" "false"
  | .num n => toString n
  | .str s => s
  | .arr xs => String.intercalate "," (xs.map jsKeyAtom)
  | .obj _ => "[object Object]"

end JSValue

open JSValue

/-- `xs.map f` with a possibly throwing callback: the first throw propagates. -/
def mapE {α β : Type} (f : α → Except String β) : List α → Except String (List β)
  | [] => .ok []
  | x :: xs => do
    let y ← f x
    let ys ← mapE f xs
    .ok (y :: ys)

/-- `v?.map(f) || []` as the source uses it on `components`, `fixVersions`
and `issuelinks`: `undefined` collapses to `[]`; calling `.map` on a
non-array non-nullish value throws. -/
def jsOptMap (v : JSValue) (f : JSValue → Except String JSValue) : Except String JSValue :=
  match v with
  | .undefined => .ok (.arr [])
  | .null => .ok (.arr [])
  | .arr xs => do
    let ys ← mapE f xs
    .ok (jsOr (.arr ys) (.arr []))
  | _ => .error "TypeError: map is not a function"

/-- The rich-text extraction path
`description?.content?.[0]?.content?.[0]?.text` from line 94 of the source. -/
def richText (descRaw : JSValue) : JSValue :=
  optChain (optIndex (optChain (optIndex (optChain descRaw "content") 0) "content") 0) "text"

/-- One entry of the `issuelinks` map callback (lines 121-125 of the source):
`{type: link.type.name, direction: link.type.inward || link.type.outward,
linkedIssue: link.inwardIssue?.key || link.outwardIssue?.key}`. -/
def transformLink (link : JSValue) : Except String JSValue := do
  let t ← getProp link "type"
  let tname ← getProp t "name"
  let tin ← getProp t "inward"
  let tout ← getProp t "outward"
  let inI ← getProp link "inwardIssue"
  let outI ← getProp link "outwardIssue"
  .ok (.obj [("type", tname),
             ("direction", jsOr tin tout),
             ("linkedIssue", jsOr (optChain inI "key") (optChain outI "key"))])

/-- The assignee/reporter ternary (lines 105-114 of the source):
`fields.x ? {displayName: .., emailAddress: .., accountId: ..} : null`. -/
def personE (p : JSValue) : Except String JSValue :=
  if truthy p then do
    let d ← getProp p "displayName"
    let e ← getProp p "emailAddress"
    let a ← getProp p "accountId"
    pure (JSValue.obj [("displayName", d), ("emailAddress", e), ("accountId", a)])
  else pure JSValue.null

/-- The normalized record built by `transformUserStory`; one field per key of
the object literal at lines 91-127 of the source, nested objects kept as
`JSValue`s. -/
structure NormalizedRecord where
  key : JSValue
  summary : JSValue
  description : JSValue
  status : JSValue
  priority : JSValue
  assignee : JSValue
  reporter : JSValue
  created : JSValue
  updated : JSValue
  components : JSValue
  labels : JSValue
  fixVersions : JSValue
  storyPoints : JSValue
  issueLinks : JSValue
  url : JSValue
deriving Repr

/-- `transformUserStory` (lines 90-128 of the source), field by field; the
configured base address is passed explicitly. -/
def transformUserStory (baseURL : String) (issue : JSValue) : Except String NormalizedRecord := do
  let key ← getProp issue "key"
  let fields ← getProp issue "fields"
  let summary ← getProp fields "summary"
  let descRaw ← getProp fields "description"
  let description := jsOr (jsOr (richText descRaw) descRaw) (.str "No description available")
  let status ← getProp fields "status"
  let statusName ← getProp status "name"
  let statusCategory ← getProp status "statusCategory"
  let statusCategoryName ← getProp statusCategory "name"
  let priorityRaw ← getProp fields "priority"
  let priority := JSValue.obj [("name", jsOr (optChain priorityRaw "name") (.str "None")),
                               ("id", jsOr (optChain priorityRaw "id") .null)]
  let assigneeRaw ← getProp fields "assignee"
  let assignee ← personE assigneeRaw
  let reporterRaw ← getProp fields "reporter"
  let reporter ← personE reporterRaw
  let created ← getProp fields "created"
  let updated ← getProp fields "updated"
  let componentsRaw ← getProp fields "components"
  let components ← jsOptMap componentsRaw (fun comp => getProp comp "name")
  let labelsRaw ← getProp fields "labels"
  let fixVersionsRaw ← getProp fields "fixVersions"
  let fixVersions ← jsOptMap fixVersionsRaw (fun version => getProp version "name")
  let storyPointsRaw ← getProp fields "customfield_10016"
  let issueLinksRaw ← getProp fields "issuelinks"
  let issueLinks ← jsOptMap issueLinksRaw transformLink
  .ok { key := key
        summary := summary
        description := description
        status := .obj [("name", statusName), ("category", statusCategoryName)]
        priority := priority
        assignee := assignee
        reporter := reporter
        created := created
        updated := updated
        components := components
        labels := jsOr labelsRaw (.arr [])
        fixVersions := fixVersions
        storyPoints := jsOr storyPointsRaw .null
        issueLinks := issueLinks
        url := .str (baseURL ++ "/browse/" ++ jsKey key) }

/-- Admissibility of a value for the `v?.map(f) || []` pattern: nullish
(collapses to `[]`) or an array whose elements satisfy `elemOK`. -/
def arrFieldOK (v : JSValue) (elemOK : JSValue → Bool) : Bool :=
  match v with
  | .undefined => true
  | .null => true
  | .arr xs => xs.all elemOK
  | _ => false

/-- A link entry on which the callback at lines 121-125 cannot throw:
the entry and its `type` are not nullish. -/
def linkOK (link : JSValue) : Bool :=
  notNullish link && notNullish (pget link "type")

/-- Structural conditions under which `transformUserStory` cannot throw:
the issue, its `fields`, the `status` and its `statusCategory` are not
nullish, and the three `?.map`ped arrays are nullish or arrays of
admissible elements. -/
def totalOK (issue : JSValue) : Bool :=
  notNullish issue &&
  notNullish (pget issue "fields") &&
  notNullish (pget (pget issue "fields") "status") &&
  notNullish (pget (pget (pget issue "fields") "status") "statusCategory") &&
  arrFieldOK (pget (pget issue "fields") "components") notNullish &&
  arrFieldOK (pget (pget issue "fields") "fixVersions") notNullish &&
  arrFieldOK (pget (pget issue "fields") "issuelinks") linkOK

/-- Throw-free closed form of one `issuelinks` entry. -/
def linkPure (link : JSValue) : JSValue :=
  .obj [("type", pget (pget link "type") "name"),
        ("direction", jsOr (pget (pget link "type") "inward") (pget (pget link "type") "outward")),
        ("linkedIssue", jsOr (optChain (pget link "inwardIssue") "key")
                             (optChain (pget link "outwardIssue") "key"))]

/-- Throw-free closed form of `v?.map(proj) || []` on admissible values. -/
def arrMapPure (v : JSValue) (proj : JSValue → JSValue) : JSValue :=
  match v with
  | .arr xs => .arr (xs.map proj)
  | _ => .arr []

/-- Throw-free closed form of the assignee/reporter ternary. -/
def personPure (p : JSValue) : JSValue :=
  if truthy p then
    .obj [("displayName", pget p "displayName"),
          ("emailAddress", pget p "emailAddress"),
          ("accountId", pget p "accountId")]
  else .null

/-- Closed form of `transformUserStory` on inputs satisfying `totalOK`. -/
def transformPure (baseURL : String) (issue : JSValue) : NormalizedRecord :=
  let fields := pget issue "fields"
  { key := pget issue "key"
    summary := pget fields "summary"
    description := jsOr (jsOr (richText (pget fields "description")) (pget fields "description"))
                        (.str "No description available")
    status := .obj [("name", pget (pget fields "status") "name"),
                    ("category", pget (pget (pget fields "status") "statusCategory") "name")]
    priority := .obj [("name", jsOr (optChain (pget fields "priority") "name") (.str "None")),
                      ("id", jsOr (optChain (pget fields "priority") "id") .null)]
    assignee := personPure (pget fields "assignee")
    reporter := personPure (pget fields "reporter")
    created := pget fields "created"
    updated := pget fields "updated"
    components := arrMapPure (pget fields "components") (fun comp => pget comp "name")
    labels := jsOr (pget fields "labels") (.arr [])
    fixVersions := arrMapPure (pget fields "fixVersions") (fun version => pget version "name")
    storyPoints := jsOr (pget fields "customfield_10016") .null
    issueLinks := arrMapPure (pget fields "issuelinks") linkPure
    url := .str (baseURL ++ "/browse/" ++ jsKey (pget issue "key")) }

/-- The configuration values the pipeline reads (from `JIRA_CONFIG`). -/
structure JiraConfig where
  baseURL : String
  projectKey : String
deriving Repr

structure OutputMetadata where
  projectKey : String
  totalStories : Nat
  fetchedAt : String
  jiraBaseUrl : String
deriving Repr, DecidableEq

structure OutputDocument where
  metadata : OutputMetadata
  userStories : List NormalizedRecord
deriving Repr

/-- The output object of lines 147-155: metadata (`totalStories` is the
record count, `fetchedAt` the write-time timestamp) wrapping the records. -/
def buildOutput (cfg : JiraConfig) (now : String)
    (userStories : List NormalizedRecord) : OutputDocument :=
  { metadata := { projectKey := cfg.projectKey
                  totalStories := userStories.length
                  fetchedAt := now
                  jiraBaseUrl := cfg.baseURL }
    userStories := userStories }

/-- `saveToJSON` (lines 135-165 of the source): builds the output document
and hands it to the filesystem; `fsWrite` models directory creation plus
`writeFileSync`, returning the path or the underlying failure. -/
def saveToJSON (cfg : JiraConfig) (now : String)
    (fsWrite : OutputDocument → Except String String)
    (userStories : List NormalizedRecord) : Except String (String × OutputDocument) := do
  let filePath ← fsWrite (buildOutput cfg now userStories)
  .ok (filePath, buildOutput cfg now userStories)

/-- `acc[name] = (acc[name] || 0) + 1` on a plain object accumulator,
modelled as an insertion-ordered association list (lines 195-198). -/
def bump (acc : List (String × Nat)) (k : String) : List (String × Nat) :=
  match acc.lookup k with
  | some n => acc.map (fun p => if p.1 == k then (p.1, n + 1) else p)
  | none => acc ++ [(k, 1)]

/-- `story.status.name` coerced to a property key. -/
def storyStatusName (story : NormalizedRecord) : String :=
  jsKey (pget story.status "name")

/-- The status histogram built by `reduce` over the transformed batch. -/
def statusCounts (stories : List NormalizedRecord) : List (String × Nat) :=
  stories.foldl (fun acc story => bump acc (storyStatusName story)) []

/-- Observable outcome of one run of `main`. -/
structure RunResult where
  written : Option OutputDocument
  exitCode : Nat
  normalizeRan : Bool
  writeRan : Bool
  errDiagnostic : Option String
deriving Repr

/-- `main` (lines 170-211 of the source): fetch, transform each record,
save; the catch-all prints the diagnostic to the error stream and exits 1,
and full success reaches the end of `main` so the process exits 0. The
fetch outcome and the filesystem are parameters. -/
def mainRun (cfg : JiraConfig) (now : String)
    (fetchResult : Except String (List JSValue))
    (fsWrite : OutputDocument → Except String String) : RunResult :=
  match fetchResult with
  | .error e =>
    { written := none, exitCode := 1, normalizeRan := false, writeRan := false
      errDiagnostic := some ("Process failed: " ++ e) }
  | .ok rawUserStories =>
    match mapE (transformUserStory cfg.baseURL) rawUserStories with
    | .error e =>
      { written := none, exitCode := 1, normalizeRan := true, writeRan := false
        errDiagnostic := some ("Process failed: " ++ e) }
    | .ok transformedUserStories =>
      match saveToJSON cfg now fsWrite transformedUserStories with
      | .error e =>
        { written := none, exitCode := 1, normalizeRan := true, writeRan := true
          errDiagnostic := some ("Process failed: " ++ e) }
      | .ok (_, output) =>
        { written := some output, exitCode := 0, normalizeRan := true, writeRan := true
          errDiagnostic := none }

/-- Base address used for concrete instances. -/
def exBase : String := "https://example.atlassian.net"

/-- Fields every structurally-valid remote record carries. -/
def baseFields : List (String × JSValue) :=
  [("summary", .str "Add login"),
   ("status", .obj [("name", .str "Open"),
                    ("statusCategory", .obj [("name", .str "To Do")])])]

/-- A raw record with identifier, summary and status present, plus `extra`
fields. -/
def mkIssue (extra : List (String × JSValue)) : JSValue :=
  .obj [("key", .str "PROJ-1"), ("fields", .obj (baseFields ++ extra))]

/-- The rich-text description body `{content:[{content:[{text:"A"}]}]}`. -/
def richDesc : JSValue :=
  .obj [("content", .arr [.obj [("content", .arr [.obj [("text", .str "A")]])]])]

/-- A link whose linked issue sits on the outward side, with both labels
present on the link type. -/
def exOutLink : JSValue :=
  .obj [("type", .obj [("name", .str "Blocks"),
                       ("inward", .str "is blocked by"),
                       ("outward", .str "blocks")]),
        ("outwardIssue", .obj [("key", .str "PROJ-2")])]

/-- A link whose linked issue sits on the inward side. -/
def exInLink : JSValue :=
  .obj [("type", .obj [("name", .str "Blocks"),
                       ("inward", .str "is blocked by"),
                       ("outward", .str "blocks")]),
        ("inwardIssue", .obj [("key", .str "PROJ-3")])]

/-- Concrete array-valued fields: components and fixVersions present,
labels and issuelinks absent. -/
def exArrFields : List (String × JSValue) :=
  [("components", .arr [.obj [("name", .str "API")], .obj [("name", .str "UI")]]),
   ("fixVersions", .arr [.obj [("name", .str "1.0")]])]

/-- A concrete assignee object. -/
def exPerson : JSValue :=
  .obj [("displayName", .str "Ada"), ("emailAddress", .str "ada@example.com"),
        ("accountId", .str "acc-1")]

/-- Concrete configuration for witnesses. -/
def exCfg : JiraConfig := { baseURL := exBase, projectKey := "PROJ" }

/-- A filesystem that accepts every write. -/
def fsOk : OutputDocument → Except String String :=
  fun _ => .ok "data/jira-user-story.json"

/-- A minimal structurally-valid raw record with the given key and status
name. -/
def mkStatusIssue (key status : String) : JSValue :=
  .obj [("key", .str key),
        ("fields", .obj [("summary", .str "S"),
                         ("status", .obj [("name", .str status),
                                          ("statusCategory", .obj [("name", .str "C")])])])]

theorem truthy_notNullish {v : JSValue} (h : truthy v = true) : notNullish v = true := by
  cases v <;> simp_all [truthy, notNullish]

theorem getProp_of_notNullish {v : JSValue} (h : notNullish v = true) (k : String) :
    getProp v k = .ok (pget v k) := by
  cases v <;> simp_all [getProp, notNullish]

theorem mapE_eq_map {f : JSValue → Except String JSValue} {proj : JSValue → JSValue}
    {xs : List JSValue} (h : ∀ x ∈ xs, f x = .ok (proj x)) :
    mapE f xs = .ok (xs.map proj) := by
  induction xs with
  | nil => rfl
  | cons x xs ih =>
    have hx := h x (List.mem_cons_self x xs)
    have ih2 := ih (fun y hy => h y (List.mem_cons_of_mem _ hy))
    simp [mapE, hx, ih2, bind, Except.bind]

theorem jsOptMap_pure {v : JSValue} {eOK : JSValue → Bool}
    {f : JSValue → Except String JSValue} {proj : JSValue → JSValue}
    (hv : arrFieldOK v eOK = true) (hf : ∀ x, eOK x = true → f x = .ok (proj x)) :
    jsOptMap v f = .ok (arrMapPure v proj) := by
  cases v <;> simp_all [arrFieldOK, jsOptMap, arrMapPure]
  case arr xs =>
    rw [mapE_eq_map (fun x hx => hf x (hv x hx))]
    simp [bind, Except.bind, jsOr, truthy]

theorem transformLink_pure {link : JSValue} (h : linkOK link = true) :
    transformLink link = .ok (linkPure link) := by
  simp only [linkOK, Bool.and_eq_true] at h
  obtain ⟨h1, h2⟩ := h
  simp [transformLink, linkPure, getProp_of_notNullish h1, getProp_of_notNullish h2,
        bind, Except.bind]

theorem personE_eq (p : JSValue) : personE p = Except.ok (personPure p) := by
  by_cases hp : truthy p
  · simp [personE, hp, personPure, getProp_of_notNullish (truthy_notNullish hp),
          bind, Except.bind, pure, Except.pure]
  · simp [personE, hp, personPure, pure, Except.pure]

theorem transformUserStory_eq_pure (b : String) {issue : JSValue} (h : totalOK issue = true) :
    transformUserStory b issue = .ok (transformPure b issue) := by
  simp only [totalOK, Bool.and_eq_true] at h
  obtain ⟨⟨⟨⟨⟨⟨h1, h2⟩, h3⟩, h4⟩, h5⟩, h6⟩, h7⟩ := h
  have hc := jsOptMap_pure h5 (fun x hx => getProp_of_notNullish hx "name")
  have hv := jsOptMap_pure h6 (fun x hx => getProp_of_notNullish hx "name")
  have hl := jsOptMap_pure h7 (fun x hx => transformLink_pure hx)
  simp [transformUserStory, transformPure, personE_eq,
        getProp_of_notNullish h1, getProp_of_notNullish h2, getProp_of_notNullish h3,
        getProp_of_notNullish h4, hc, hv, hl,
        bind, Except.bind, pure, Except.pure]

/-- C1 (amended): the description precedence is decided by JavaScript
truthiness, not mere presence: if the rich-text path yields a truthy text,
the output description is that text; otherwise, if the raw description value
is truthy, the output is that raw value; otherwise the output is the fixed
placeholder string. -/
theorem C1_description_precedence (b : String) (issue : JSValue) (h : totalOK issue = true) :
    ∃ r, transformUserStory b issue = .ok r ∧
      (truthy (richText (pget (pget issue "fields") "description")) = true →
        r.description = richText (pget (pget issue "fields") "description")) ∧
      (truthy (richText (pget (pget issue "fields") "description")) = false →
        truthy (pget (pget issue "fields") "description") = true →
        r.description = pget (pget issue "fields") "description") ∧
      (truthy (richText (pget (pget issue "fields") "description")) = false →
        truthy (pget (pget issue "fields") "description") = false →
        r.description = .str "No description available") := by
  refine ⟨transformPure b issue, transformUserStory_eq_pure b h, ?_, ?_, ?_⟩ <;>
    intros <;> simp_all [transformPure, jsOr]

/-- C1 counterexample: the description field present as the plain (empty)
string is not echoed to the output; the code yields the placeholder because
the empty string is falsy, so the output does not equal the present plain
value. -/
theorem C1_counterexample :
    (transformUserStory exBase (mkIssue [("description", .str "")])).map (fun r => r.description)
        = .ok (.str "No description available") ∧
      JSValue.str "No description available" ≠ .str "" :=
  ⟨rfl, by simp⟩

/-- C1 witness: the three concrete description examples of the claim. -/
theorem C1_description_precedence_witness :
    (transformUserStory exBase (mkIssue [("description", richDesc)])).map (fun r => r.description)
        = .ok (.str "A") ∧
    (transformUserStory exBase (mkIssue [("description", .str "B")])).map (fun r => r.description)
        = .ok (.str "B") ∧
    (transformUserStory exBase (mkIssue [])).map (fun r => r.description)
        = .ok (.str "No description available") := by
  refine ⟨?_, ?_, ?_⟩
  · obtain ⟨r, hr, h1, -, -⟩ :=
      C1_description_precedence exBase (mkIssue [("description", richDesc)]) (by rfl)
    have hd := h1 (by rfl)
    rw [hr]
    simp only [Except.map]
    rw [hd]
    rfl
  · obtain ⟨r, hr, -, h2, -⟩ :=
      C1_description_precedence exBase (mkIssue [("description", .str "B")]) (by rfl)
    have hd := h2 (by rfl) (by rfl)
    rw [hr]
    simp only [Except.map]
    rw [hd]
    rfl
  · obtain ⟨r, hr, -, -, h3⟩ :=
      C1_description_precedence exBase (mkIssue []) (by rfl)
    have hd := h3 (by rfl) (by rfl)
    rw [hr]
    simp only [Except.map]
    rw [hd]

theorem jsOr_ne_undefined {a b : JSValue} (hb : b ≠ JSValue.undefined) :
    jsOr a b ≠ JSValue.undefined := by
  intro hcontra
  unfold jsOr at hcontra
  split at hcontra
  · rename_i hta
    rw [hcontra] at hta
    simp [truthy] at hta
  · exact hb hcontra

theorem personPure_ne_undefined (p : JSValue) : personPure p ≠ JSValue.undefined := by
  unfold personPure
  split <;> simp

theorem arrMapPure_ne_undefined (v : JSValue) (f : JSValue → JSValue) :
    arrMapPure v f ≠ JSValue.undefined := by
  unfold arrMapPure
  split <;> simp

/-- C2 counterexample: a raw record with identifier, summary and status all
present, whose `issuelinks` array holds one entry without a `type`, makes
`transformUserStory` throw (reading `name` of `undefined`), so the claimed
precondition does not rule out the error branch. -/
theorem C2_counterexample :
    notNullish (pget (mkIssue [("issuelinks", .arr [.obj []])]) "key") = true ∧
    notNullish (pget (pget (mkIssue [("issuelinks", .arr [.obj []])]) "fields") "summary") = true ∧
    notNullish (pget (pget (mkIssue [("issuelinks", .arr [.obj []])]) "fields") "status") = true ∧
    (transformUserStory exBase (mkIssue [("issuelinks", .arr [.obj []])])).isOk = false :=
  ⟨rfl, rfl, rfl, rfl⟩

/-- C2 (amended): under the structural guarantee strengthened to also cover
the nested reads the code performs without optional chaining (a non-nullish
`status` with a non-nullish `statusCategory`, and `components`,
`fixVersions`, `issuelinks` nullish or arrays of non-nullish entries whose
links carry a `type`), `transformUserStory` terminates without throwing, and
every defensively-defaulted field of the result is a concrete value, `null`
or a sequence — never `undefined`. -/
theorem C2_transform_total (b : String) (issue : JSValue) (h : totalOK issue = true) :
    ∃ r, transformUserStory b issue = .ok r ∧
      r.description ≠ .undefined ∧
      r.priority ≠ .undefined ∧
      r.assignee ≠ .undefined ∧
      r.reporter ≠ .undefined ∧
      r.components ≠ .undefined ∧
      r.labels ≠ .undefined ∧
      r.fixVersions ≠ .undefined ∧
      r.storyPoints ≠ .undefined ∧
      r.issueLinks ≠ .undefined := by
  refine ⟨transformPure b issue, transformUserStory_eq_pure b h, ?_, ?_, ?_, ?_, ?_, ?_, ?_, ?_, ?_⟩ <;>
    simp only [transformPure]
  · exact jsOr_ne_undefined (by simp)
  · simp
  · exact personPure_ne_undefined _
  · exact personPure_ne_undefined _
  · exact arrMapPure_ne_undefined _ _
  · exact jsOr_ne_undefined (by simp)
  · exact arrMapPure_ne_undefined _ _
  · exact jsOr_ne_undefined (by simp)
  · exact arrMapPure_ne_undefined _ _

/-- C2 witness: a minimal record with only identifier, summary and status
normalizes without throwing. -/
theorem C2_transform_total_witness :
    (transformUserStory exBase (mkIssue [])).isOk = true := by
  obtain ⟨r, hr, -⟩ := C2_transform_total exBase (mkIssue []) (by rfl)
  rw [hr]
  rfl

/-- C3 counterexample: for a link where the record is not the inward side
(the linked issue is under `outwardIssue`), the code still emits the inward
label `"is blocked by"` as the direction, not the outward label `"blocks"`
the claim requires, because `link.type.inward || link.type.outward` never
consults which side is present. -/
theorem C3_counterexample :
    (transformUserStory exBase (mkIssue [("issuelinks", .arr [exOutLink])])).map
        (fun r => r.issueLinks)
      = .ok (.arr [.obj [("type", .str "Blocks"),
                         ("direction", .str "is blocked by"),
                         ("linkedIssue", .str "PROJ-2")]]) ∧
    JSValue.str "is blocked by" ≠ .str "blocks" :=
  ⟨rfl, by simp⟩

/-- C3 (amended): for every issue link whose entry and type are non-nullish,
the normalized entry has `type` equal to the link type's name; `direction`
equal to the link type's inward label whenever that label is truthy and the
outward label otherwise, regardless of which side of the link the record is
on; and `linkedIssue` equal to the inward issue's key when that key is
truthy, else the outward issue's key. -/
theorem C3_link_direction (link : JSValue) (h : linkOK link = true) :
    ∃ e, transformLink link = .ok e ∧
      pget e "type" = pget (pget link "type") "name" ∧
      (truthy (pget (pget link "type") "inward") = true →
        pget e "direction" = pget (pget link "type") "inward") ∧
      (truthy (pget (pget link "type") "inward") = false →
        pget e "direction" = pget (pget link "type") "outward") ∧
      (truthy (optChain (pget link "inwardIssue") "key") = true →
        pget e "linkedIssue" = optChain (pget link "inwardIssue") "key") ∧
      (truthy (optChain (pget link "inwardIssue") "key") = false →
        pget e "linkedIssue" = optChain (pget link "outwardIssue") "key") := by
  refine ⟨linkPure link, transformLink_pure h, ?_, ?_, ?_, ?_, ?_⟩ <;>
    intros <;> simp_all [linkPure, pget, List.lookup, jsOr]

/-- C3 witness: the claim's inward-side test, which the code does satisfy
when the inward label and inward key are truthy. -/
theorem C3_link_direction_witness :
    (transformLink exInLink).map (fun e => (pget e "direction", pget e "linkedIssue"))
      = .ok (.str "is blocked by", .str "PROJ-3") := by
  obtain ⟨e, he, -, h3, -, h5, -⟩ := C3_link_direction exInLink (by rfl)
  have hd := h3 (by rfl)
  have hl := h5 (by rfl)
  rw [he]
  simp only [Except.map]
  rw [hd, hl]
  rfl

/-- C4: each array-valued source field that is absent normalizes to the
empty sequence, never null; when the source value is an array, the entries
are mapped in order to their projections (component name, label string,
version name, link triple). -/
theorem C4_array_defaulting (b : String) (issue : JSValue) (h : totalOK issue = true) :
    ∃ r, transformUserStory b issue = .ok r ∧
      (pget (pget issue "fields") "components" = .undefined → r.components = .arr []) ∧
      (∀ xs, pget (pget issue "fields") "components" = .arr xs →
        r.components = .arr (xs.map (fun comp => pget comp "name"))) ∧
      (pget (pget issue "fields") "labels" = .undefined → r.labels = .arr []) ∧
      (∀ xs, pget (pget issue "fields") "labels" = .arr xs → r.labels = .arr xs) ∧
      (pget (pget issue "fields") "fixVersions" = .undefined → r.fixVersions = .arr []) ∧
      (∀ xs, pget (pget issue "fields") "fixVersions" = .arr xs →
        r.fixVersions = .arr (xs.map (fun version => pget version "name"))) ∧
      (pget (pget issue "fields") "issuelinks" = .undefined → r.issueLinks = .arr []) ∧
      (∀ xs, pget (pget issue "fields") "issuelinks" = .arr xs →
        r.issueLinks = .arr (xs.map linkPure)) := by
  refine ⟨transformPure b issue, transformUserStory_eq_pure b h,
          ?_, ?_, ?_, ?_, ?_, ?_, ?_, ?_⟩ <;>
    intros <;> simp_all [transformPure, arrMapPure, jsOr, truthy]

/-- C4 witness: present arrays map in order; absent arrays become `[]`. -/
theorem C4_array_defaulting_witness :
    (transformUserStory exBase (mkIssue exArrFields)).map
        (fun r => (r.components, r.labels, r.fixVersions, r.issueLinks))
      = .ok (.arr [.str "API", .str "UI"], .arr [], .arr [.str "1.0"], .arr []) := by
  obtain ⟨r, hr, hc1, hc2, hl1, hl2, hf1, hf2, hi1, hi2⟩ :=
    C4_array_defaulting exBase (mkIssue exArrFields) (by rfl)
  have h1 := hc2 [.obj [("name", .str "API")], .obj [("name", .str "UI")]] (by rfl)
  have h2 := hl1 (by rfl)
  have h3 := hf2 [.obj [("name", .str "1.0")]] (by rfl)
  have h4 := hi1 (by rfl)
  rw [hr]
  simp only [Except.map]
  rw [h1, h2, h3, h4]
  rfl

/-- C5 counterexample: a record whose `assignee` field is present with the
value `null` normalizes `assignee` to `null`, which the claim reserves for
the absent case; the claimed three-field projection of the present source
value is not produced, so presence and absence are conflated. -/
theorem C5_counterexample :
    List.lookup "assignee" (baseFields ++ [("assignee", JSValue.null)]) = some JSValue.null ∧
    (transformUserStory exBase (mkIssue [("assignee", JSValue.null)])).map (fun r => r.assignee)
      = .ok .null ∧
    JSValue.null ≠ .obj [("displayName", .undefined), ("emailAddress", .undefined),
                         ("accountId", .undefined)] :=
  ⟨rfl, rfl, by simp⟩

/-- C5 (amended): the normalized assignee (and likewise reporter) is the
three-field projection of the source value exactly when that value is
truthy, and `null` when the source value is absent or otherwise falsy —
absence and a present falsy value (such as `null`) are conflated. -/
theorem C5_person_fields (b : String) (issue : JSValue) (h : totalOK issue = true) :
    ∃ r, transformUserStory b issue = .ok r ∧
      (truthy (pget (pget issue "fields") "assignee") = true →
        r.assignee = .obj [("displayName", pget (pget (pget issue "fields") "assignee") "displayName"),
                           ("emailAddress", pget (pget (pget issue "fields") "assignee") "emailAddress"),
                           ("accountId", pget (pget (pget issue "fields") "assignee") "accountId")]) ∧
      (truthy (pget (pget issue "fields") "assignee") = false → r.assignee = .null) ∧
      (truthy (pget (pget issue "fields") "reporter") = true →
        r.reporter = .obj [("displayName", pget (pget (pget issue "fields") "reporter") "displayName"),
                           ("emailAddress", pget (pget (pget issue "fields") "reporter") "emailAddress"),
                           ("accountId", pget (pget (pget issue "fields") "reporter") "accountId")]) ∧
      (truthy (pget (pget issue "fields") "reporter") = false → r.reporter = .null) := by
  refine ⟨transformPure b issue, transformUserStory_eq_pure b h, ?_, ?_, ?_, ?_⟩ <;>
    intros <;> simp_all [transformPure, personPure]

/-- C5 witness: an absent assignee becomes `null`; a present assignee object
becomes the three-field projection. -/
theorem C5_person_fields_witness :
    (transformUserStory exBase (mkIssue [])).map (fun r => r.assignee) = .ok .null ∧
    (transformUserStory exBase (mkIssue [("assignee", exPerson)])).map (fun r => r.assignee)
      = .ok (.obj [("displayName", .str "Ada"), ("emailAddress", .str "ada@example.com"),
                   ("accountId", .str "acc-1")]) := by
  constructor
  · obtain ⟨r, hr, -, h2, -, -⟩ := C5_person_fields exBase (mkIssue []) (by rfl)
    have ha := h2 (by rfl)
    rw [hr]
    simp only [Except.map]
    rw [ha]
  · obtain ⟨r, hr, h1, -, -, -⟩ := C5_person_fields exBase (mkIssue [("assignee", exPerson)]) (by rfl)
    have ha := h1 (by rfl)
    rw [hr]
    simp only [Except.map]
    rw [ha]
    rfl

/-- C10: a falsy story-point value (for example the number 0) collapses to
`null`; only a truthy story-point value is copied through. -/
theorem C10_storyPoints_falsy (b : String) (issue : JSValue) (h : totalOK issue = true) :
    ∃ r, transformUserStory b issue = .ok r ∧
      (truthy (pget (pget issue "fields") "customfield_10016") = false →
        r.storyPoints = .null) ∧
      (truthy (pget (pget issue "fields") "customfield_10016") = true →
        r.storyPoints = pget (pget issue "fields") "customfield_10016") := by
  refine ⟨transformPure b issue, transformUserStory_eq_pure b h, ?_, ?_⟩ <;>
    intros <;> simp_all [transformPure, jsOr]

/-- C10 witness: story points present as the number 0 normalize to `null`;
present as 5 they are kept. -/
theorem C10_storyPoints_falsy_witness :
    (transformUserStory exBase (mkIssue [("customfield_10016", .num 0)])).map
        (fun r => r.storyPoints) = .ok .null ∧
    (transformUserStory exBase (mkIssue [("customfield_10016", .num 5)])).map
        (fun r => r.storyPoints) = .ok (.num 5) := by
  constructor
  · obtain ⟨r, hr, h1, -⟩ :=
      C10_storyPoints_falsy exBase (mkIssue [("customfield_10016", .num 0)]) (by rfl)
    have hs := h1 (by rfl)
    rw [hr]
    simp only [Except.map]
    rw [hs]
  · obtain ⟨r, hr, -, h2⟩ :=
      C10_storyPoints_falsy exBase (mkIssue [("customfield_10016", .num 5)]) (by rfl)
    have hs := h2 (by rfl)
    rw [hr]
    simp only [Except.map]
    rw [hs]
    rfl

theorem mapE_length {α β : Type} {f : α → Except String β} :
    ∀ {xs : List α} {ys : List β}, mapE f xs = .ok ys → ys.length = xs.length := by
  intro xs
  induction xs with
  | nil => intro ys h; simp [mapE] at h; simp [← h]
  | cons x xs ih =>
    intro ys h
    simp only [mapE, bind, Except.bind] at h
    cases hx : f x with
    | error e => rw [hx] at h; simp at h
    | ok y =>
      rw [hx] at h
      cases hm : mapE f xs with
      | error e => rw [hm] at h; simp at h
      | ok zs =>
        rw [hm] at h
        simp at h
        rw [← h]
        simp [ih hm]

/-- C6: on a successful run over N fetched raw records, the written
document's `metadata.totalStories` is N, its record list has length N, and
the metadata carries the project identifier, the write-time timestamp and
the base address. -/
theorem C6_count_consistency (cfg : JiraConfig) (now : String) (raw : List JSValue)
    (fsWrite : OutputDocument → Except String String) (doc : OutputDocument)
    (h : (mainRun cfg now (.ok raw) fsWrite).written = some doc) :
    doc.metadata.totalStories = raw.length ∧
    doc.userStories.length = raw.length ∧
    doc.metadata.projectKey = cfg.projectKey ∧
    doc.metadata.fetchedAt = now ∧
    doc.metadata.jiraBaseUrl = cfg.baseURL := by
  simp only [mainRun] at h
  cases hm : mapE (transformUserStory cfg.baseURL) raw with
  | error e => rw [hm] at h; simp at h
  | ok stories =>
    rw [hm] at h
    simp only [saveToJSON, bind, Except.bind] at h
    cases hf : fsWrite (buildOutput cfg now stories) with
    | error e => rw [hf] at h; simp at h
    | ok p =>
      rw [hf] at h
      simp only [Option.some.injEq] at h
      subst h
      refine ⟨?_, ?_, rfl, rfl, rfl⟩ <;> simp [buildOutput, mapE_length hm]

/-- C6 witness: one fetched record yields a document with one story and
count 1. -/
theorem C6_count_consistency_witness :
    ((mainRun exCfg "2026-10-12T00:00:00.000Z" (.ok [mkIssue []]) fsOk).written.getD
        (buildOutput exCfg "2026-10-12T00:00:00.000Z" [])).metadata.totalStories = 1 ∧
    ((mainRun exCfg "2026-10-12T00:00:00.000Z" (.ok [mkIssue []]) fsOk).written.getD
        (buildOutput exCfg "2026-10-12T00:00:00.000Z" [])).userStories.length = 1 := by
  obtain ⟨h1, h2, -, -, -⟩ :=
    C6_count_consistency exCfg "2026-10-12T00:00:00.000Z" [mkIssue []] fsOk
      ((mainRun exCfg "2026-10-12T00:00:00.000Z" (.ok [mkIssue []]) fsOk).written.getD
        (buildOutput exCfg "2026-10-12T00:00:00.000Z" [])) (by rfl)
  exact ⟨by rw [h1]; rfl, by rw [h2]; rfl⟩

/-- C7: if the fetch stage throws, the normalize and write stages never run
and nothing is written; a non-zero exit always comes with no written
document and a diagnostic on the error stream; exit code 0 holds exactly
when a document was written (no partial-success state); and success of all
three stages yields exit code 0 with no diagnostic. -/
theorem C7_exit_contract (cfg : JiraConfig) (now : String)
    (fetchResult : Except String (List JSValue))
    (fsWrite : OutputDocument → Except String String) :
    (fetchResult.isOk = false →
      (mainRun cfg now fetchResult fsWrite).normalizeRan = false ∧
      (mainRun cfg now fetchResult fsWrite).writeRan = false ∧
      (mainRun cfg now fetchResult fsWrite).written = none ∧
      (mainRun cfg now fetchResult fsWrite).exitCode = 1 ∧
      (mainRun cfg now fetchResult fsWrite).errDiagnostic.isSome = true) ∧
    ((mainRun cfg now fetchResult fsWrite).exitCode ≠ 0 →
      (mainRun cfg now fetchResult fsWrite).written = none ∧
      (mainRun cfg now fetchResult fsWrite).errDiagnostic.isSome = true) ∧
    ((mainRun cfg now fetchResult fsWrite).exitCode = 0 ↔
      (mainRun cfg now fetchResult fsWrite).written.isSome = true) ∧
    (∀ raw stories, fetchResult = .ok raw →
      mapE (transformUserStory cfg.baseURL) raw = .ok stories →
      (fsWrite (buildOutput cfg now stories)).isOk = true →
      (mainRun cfg now fetchResult fsWrite).exitCode = 0 ∧
      (mainRun cfg now fetchResult fsWrite).errDiagnostic = none) := by
  cases fetchResult with
  | error e => simp [mainRun, Except.isOk]
  | ok raw =>
    cases hm : mapE (transformUserStory cfg.baseURL) raw with
    | error e =>
      simp only [mainRun, hm, Except.isOk]
      refine ⟨by simp [Except.toBool], by simp, by simp, ?_⟩
      intro raw1 stories h1 h2
      rw [Except.ok.inj h1] at hm
      rw [hm] at h2
      exact Except.noConfusion h2
    | ok stories =>
      cases hf : fsWrite (buildOutput cfg now stories) with
      | error e =>
        simp only [mainRun, hm, hf, saveToJSON, bind, Except.bind, Except.isOk]
        refine ⟨by simp [Except.toBool], by simp, by simp, ?_⟩
        intro raw1 stories1 h1 h2
        rw [Except.ok.inj h1] at hm
        rw [hm] at h2
        rw [← Except.ok.inj h2, hf]
        intro hcontra
        exact absurd hcontra (by simp [Except.toBool])
      | ok p =>
        simp only [mainRun, hm, hf, saveToJSON, bind, Except.bind, Except.isOk]
        refine ⟨by simp [Except.toBool], by simp, by simp, ?_⟩
        intro raw1 stories1 h1 h2 h3
        trivial

/-- C7 witness: a failing fetch exits 1 with nothing written and no
normalization. -/
theorem C7_exit_contract_witness :
    (mainRun exCfg "2026-10-12T00:00:00.000Z" (.error "request failed") fsOk).normalizeRan
        = false ∧
    (mainRun exCfg "2026-10-12T00:00:00.000Z" (.error "request failed") fsOk).written = none ∧
    (mainRun exCfg "2026-10-12T00:00:00.000Z" (.error "request failed") fsOk).exitCode = 1 := by
  obtain ⟨hfail, -, -, -⟩ :=
    C7_exit_contract exCfg "2026-10-12T00:00:00.000Z" (.error "request failed") fsOk
  obtain ⟨g1, -, g3, g4, -⟩ := hfail (by rfl)
  exact ⟨g1, g3, g4⟩

theorem lookup_map_setKey (k : String) (n : Nat) (j : String) :
    ∀ acc : List (String × Nat),
      List.lookup j (acc.map (fun p => if p.1 == k then (p.1, n + 1) else p)) =
        (if j == k then (List.lookup j acc).map (fun _ => n + 1) else List.lookup j acc) := by
  intro acc
  induction acc with
  | nil => cases hj : (j == k) <;> simp [List.lookup, hj]
  | cons a acc ih =>
    obtain ⟨ak, av⟩ := a
    simp only [List.map_cons, List.lookup_cons]
    cases hak : (ak == k) <;> cases hja : (j == ak)
    · simp [hak, hja, List.lookup_cons] at ih ⊢
      exact ih
    · have h2 : j = ak := by simpa using hja
      subst h2
      simp [hak, List.lookup_cons]
    · have h1 : ak = k := by simpa using hak
      subst h1
      simp [hja, List.lookup_cons] at ih ⊢
      exact ih
    · have h1 : ak = k := by simpa using hak
      subst h1
      have h2 : j = ak := by simpa using hja
      subst h2
      simp [List.lookup_cons]

theorem bump_lookup (acc : List (String × Nat)) (k j : String) :
    List.lookup j (bump acc k) =
      (if j == k then some ((List.lookup k acc).getD 0 + 1) else List.lookup j acc) := by
  unfold bump
  cases hk : List.lookup k acc with
  | some n =>
    rw [lookup_map_setKey]
    by_cases hj : j = k
    · subst hj; simp [hk]
    · simp [hj]
  | none =>
    rw [List.lookup_append]
    by_cases hj : j = k
    · subst hj
      simp [hk, List.lookup]
    · have hb : (j == k) = false := by simp [hj]
      cases hacc : List.lookup j acc <;>
        simp [hacc, hb, List.lookup, Option.or]

theorem statusCounts_loop (j : String) :
    ∀ (l : List NormalizedRecord) (acc : List (String × Nat)),
      List.lookup j (l.foldl (fun a s => bump a (storyStatusName s)) acc) =
        (if (l.filter (fun s => storyStatusName s == j)).length = 0 then List.lookup j acc
         else some ((List.lookup j acc).getD 0 +
                    (l.filter (fun s => storyStatusName s == j)).length)) := by
  intro l
  induction l with
  | nil => intro acc; simp
  | cons x xs ih =>
    intro acc
    simp only [List.foldl_cons, List.filter_cons]
    rw [ih (bump acc (storyStatusName x))]
    rw [bump_lookup]
    by_cases hx : storyStatusName x = j
    · rw [hx]
      simp only [beq_self_eq_true, if_true, List.length_cons]
      by_cases hc : (List.filter (fun s => storyStatusName s == j) xs).length = 0 <;>
        simp [hc, Option.some.injEq] <;> omega
    · have hne : j ≠ storyStatusName x := fun h => hx h.symm
      have hjx : (j == storyStatusName x) = false := by simp [hne]
      have hxj : (storyStatusName x == j) = false := by simp [hx]
      simp [hjx, hxj]

/-- C8: the status histogram maps each status name to the number of records
in the batch whose status name equals it (built by folding over the batch);
and the batch with statuses Open, Open, Done yields the histogram
`[("Open", 2), ("Done", 1)]`, computed here from records produced by the
normalizer itself. -/
theorem C8_status_histogram :
    (∀ (stories : List NormalizedRecord) (name : String),
      List.lookup name (statusCounts stories) =
        (if (stories.filter (fun s => storyStatusName s == name)).length = 0 then none
         else some ((stories.filter (fun s => storyStatusName s == name)).length))) ∧
    (mapE (transformUserStory exBase)
        [mkStatusIssue "PROJ-1" "Open", mkStatusIssue "PROJ-2" "Open",
         mkStatusIssue "PROJ-3" "Done"]).map statusCounts
      = .ok [("Open", 2), ("Done", 1)] := by
  constructor
  · intro stories name
    have h := statusCounts_loop name stories []
    simpa [statusCounts] using h
  · rfl

/-- C9: normalization is deterministic — two results of normalizing the same
raw record under the same base address are deep-equal. -/
theorem C9_deterministic (b : String) (issue : JSValue) (r₁ r₂ : NormalizedRecord)
    (h₁ : transformUserStory b issue = .ok r₁) (h₂ : transformUserStory b issue = .ok r₂) :
    r₁ = r₂ := by
  rw [h₁] at h₂
  exact Except.ok.inj h₂

/-- C9 witness: two evaluations of the normalizer on the same concrete
record agree. -/
theorem C9_deterministic_witness :
    transformPure exBase (mkIssue []) = transformPure exBase (mkIssue []) :=
  C9_deterministic exBase (mkIssue []) _ _ rfl rfl
